import Mathlib

/-!
Verification of the data-preparation / aggregation pipeline of
`src/app.py` (utility-dashboard): a shallow embedding of the dataframe
operations the dashboard performs, together with theorems about the
loader, the sidebar filter, the aggregates, the year-over-year pivot,
the property roll-up and the forecast adapter.

Numeric cells of the spreadsheet are modelled as `Option ℚ` (a finite
number, or a missing value / NaN); float-column arithmetic (the numpy
semantics pandas uses: division by zero yields ±infinity, NaN is skipped
by `sum`/`mean`, the empty sum is 0 and the empty mean is NaN) is
modelled on the `PVal` type below.
-/

namespace App

/-- A pandas/numpy float-column scalar: a finite rational, NaN (the missing
value), or one of the two infinities. -/
inductive PVal where
  | num (q : ℚ)
  | nan
  | inf
  | neginf
deriving DecidableEq

/-- Lift a spreadsheet cell (number or missing) to a float scalar. -/
def ofOpt : Option ℚ → PVal
  | some q => .num q
  | none => .nan

/-- Float division as numpy performs it on columns: NaN propagates, a finite
number divided by zero gives NaN (0/0) or ±infinity, never an error. -/
def pdiv : PVal → PVal → PVal
  | .nan, _ => .nan
  | _, .nan => .nan
  | .num a, .num b =>
      if b = 0 then
        if a = 0 then .nan else if 0 < a then .inf else .neginf
      else .num (a / b)
  | .num _, .inf => .num 0
  | .num _, .neginf => .num 0
  | .inf, .num b => if b < 0 then .neginf else .inf
  | .neginf, .num b => if b < 0 then .inf else .neginf
  | .inf, .inf => .nan
  | .inf, .neginf => .nan
  | .neginf, .inf => .nan
  | .neginf, .neginf => .nan

/-- Float addition as numpy performs it: NaN propagates, infinities absorb,
opposite infinities give NaN. -/
def padd : PVal → PVal → PVal
  | .nan, _ => .nan
  | _, .nan => .nan
  | .num a, .num b => .num (a + b)
  | .num _, .inf => .inf
  | .inf, .num _ => .inf
  | .num _, .neginf => .neginf
  | .neginf, .num _ => .neginf
  | .inf, .inf => .inf
  | .neginf, .neginf => .neginf
  | .inf, .neginf => .nan
  | .neginf, .inf => .nan

/-- Whether a scalar is the missing value. -/
def PVal.isNan : PVal → Bool
  | .nan => true
  | _ => false

/-- pandas `Series.sum()` with its default `skipna=True`: missing values are
skipped and the empty sum is 0. -/
def psum (l : List PVal) : PVal :=
  (l.filter (fun v => !v.isNan)).foldr padd (.num 0)

/-- pandas `Series.mean()` with its default `skipna=True`: the mean of the
non-missing values, NaN when there are none. -/
def pmean (l : List PVal) : PVal :=
  let obs := l.filter (fun v => !v.isNan)
  if obs.length = 0 then .nan else pdiv (psum l) (.num obs.length)

/-- Python/pandas `Series.dt.month_name()` for month numbers 1..12. -/
def monthNameFull : Nat → String
  | 1 => "January"
  | 2 => "February"
  | 3 => "March"
  | 4 => "April"
  | 5 => "May"
  | 6 => "June"
  | 7 => "July"
  | 8 => "August"
  | 9 => "September"
  | 10 => "October"
  | 11 => "November"
  | 12 => "December"
  | _ => ""

/-- Line 17 of app.py: `df["Date"].dt.month_name().str[:3]`, the three-letter
label stored in the Month column. -/
def monthAbbrOf (m : Nat) : String := (monthNameFull m).take 3

/-- Line 19 of app.py: the fixed category list attached to the Month column. -/
def month_order : List String :=
  ["Jan", "Feb", "Mar", "Apr", "May", "Jun", "Jul", "Aug", "Sep", "Oct", "Nov", "Dec"]

/-- The categorical code of a month label: its index in `month_order`
(12, one past the end, for a label that is not a category). -/
def catCode (s : String) : Nat := month_order.findIdx (fun t => decide (t = s))

/-- A parsed calendar date (a pandas Timestamp at day granularity). -/
structure PDate where
  y : Nat
  m : Nat
  d : Nat
deriving DecidableEq

/-- Decimal digit value of a character, if it is a digit. -/
def digitVal (c : Char) : Option Nat :=
  if 48 ≤ c.toNat ∧ c.toNat ≤ 57 then some (c.toNat - 48) else none

/-- Accumulating decimal parser over a character list. -/
def parseNatAux : List Char → Nat → Option Nat
  | [], acc => some acc
  | c :: cs, acc =>
    match digitVal c with
    | some d => parseNatAux cs (acc * 10 + d)
    | none => none

/-- Parse a nonempty all-digit character list as a natural number. -/
def parseNatChars (cs : List Char) : Option Nat :=
  if cs.isEmpty then none else parseNatAux cs 0

/-- Split a character list on a separator character. -/
def splitOnChar (sep : Char) : List Char → List (List Char)
  | [] => [[]]
  | c :: cs =>
    let rest := splitOnChar sep cs
    if c = sep then [] :: rest
    else
      match rest with
      | [] => [[c]]
      | r :: rs => (c :: r) :: rs

/-- Line 15 of app.py: `pd.to_datetime` on one cell, modelled for ISO
`YYYY-MM-DD` date strings; any cell not of that shape fails to parse (and
`pd.to_datetime` raises on it, aborting the whole load). -/
def parseDate (s : String) : Option PDate :=
  match splitOnChar '-' s.data with
  | [ys, ms, ds] =>
    match parseNatChars ys, parseNatChars ms, parseNatChars ds with
    | some yn, some mn, some dn =>
      if 1 ≤ mn ∧ mn ≤ 12 ∧ 1 ≤ dn ∧ dn ≤ 31 then some ⟨yn, mn, dn⟩ else none
    | _, _, _ => none
  | _ => none

/-- One raw row of "Database with pivot tables.xlsx" (sheet "Sheet1"), with the
columns the script touches. Numeric cells as read by `pd.read_excel` are a
finite number or missing. -/
structure Row where
  propName : String
  city : String
  state : String
  utility : String
  dateCell : String
  usage : Option ℚ
  amt : Option ℚ
  units : Option ℚ
deriving DecidableEq

/-- One row of the normalized dataframe `df` produced by `load_data`:
the source columns plus the derived Year, Month (categorical label ordered by
`month_order`) and Cost_per_Unit columns. -/
structure Rec where
  propName : String
  city : String
  state : String
  utility : String
  date : PDate
  year : Nat
  month : String
  usage : Option ℚ
  amt : Option ℚ
  units : Option ℚ
  costPerUnit : PVal
deriving DecidableEq

/-- The normalized record built from a source row and its parsed date:
Year (line 16), Month (lines 17 and 20) and Cost_per_Unit (line 22,
`df["$ Amt"] / df["# units"]`). -/
def mkRec (r : Row) (d : PDate) : Rec :=
  { propName := r.propName, city := r.city, state := r.state,
    utility := r.utility, date := d, year := d.y,
    month := monthAbbrOf d.m,
    usage := r.usage, amt := r.amt, units := r.units,
    costPerUnit := pdiv (ofOpt r.amt) (ofOpt r.units) }

instance {ε α : Type} [DecidableEq ε] [DecidableEq α] : DecidableEq (Except ε α) := fun a b =>
  match a, b with
  | .ok x, .ok y => decidable_of_iff (x = y) (by simp)
  | .error e, .error f => decidable_of_iff (e = f) (by simp)
  | .ok _, .error _ => isFalse (fun hcon => by cases hcon)
  | .error _, .ok _ => isFalse (fun hcon => by cases hcon)

/-- Lines 12-24 of app.py, `load_data`: parse the Date column (an unparseable
cell makes `pd.to_datetime` raise, failing the whole load) and derive the Year,
Month and Cost_per_Unit columns. -/
def load_data : List Row → Except String (List Rec)
  | [] => .ok []
  | r :: rs =>
    match parseDate r.dateCell with
    | none => .error r.dateCell
    | some d =>
      match load_data rs with
      | .error e => .error e
      | .ok recs => .ok (mkRec r d :: recs)

/-- Lines 41-45 of app.py: the sidebar-filtered view, equality on property,
utility and year combined with logical AND; `.copy()` yields a fresh table and
the input dataframe is left unchanged. -/
def filtered (df : List Rec) (p u : String) (y : Nat) : List Rec :=
  df.filter (fun r => decide (r.propName = p ∧ r.utility = u ∧ r.year = y))

/-- Line 55 of app.py: `filtered['Usage'].sum()`. -/
def totalUsage (v : List Rec) : PVal := psum (v.map (fun r => ofOpt r.usage))

/-- Line 56 of app.py: `filtered['$ Amt'].sum()`. -/
def totalCost (v : List Rec) : PVal := psum (v.map (fun r => ofOpt r.amt))

/-- Line 57 of app.py: `filtered['$ Amt'].mean()`. -/
def avgMonthlyCost (v : List Rec) : PVal := pmean (v.map (fun r => ofOpt r.amt))

/-- Line 58 of app.py: `filtered['Cost_per_Unit'].mean()`. -/
def avgCostPerUnit (v : List Rec) : PVal := pmean (v.map (fun r => r.costPerUnit))

/-- Ordering on month-column entries induced by the categorical codes: this is
what any sort or groupby on the ordered categorical Month column uses. -/
def monthCatLe (a b : Rec) : Prop := catCode a.month ≤ catCode b.month

instance : DecidableRel monthCatLe := fun a b =>
  inferInstanceAs (Decidable (catCode a.month ≤ catCode b.month))

instance : IsTotal Rec monthCatLe := ⟨fun _ _ => Nat.le_total _ _⟩

instance : IsTrans Rec monthCatLe := ⟨fun _ _ _ h h2 => Nat.le_trans h h2⟩

/-- Sorting records by the Month categorical, i.e. by categorical code. -/
def sortByMonth (v : List Rec) : List Rec := v.insertionSort monthCatLe

/-- Python string comparison (code-point lexicographic), the order pandas'
`groupby(sort=True)` uses on string group keys. -/
def strLe (a b : String) : Prop := a.data ≤ b.data

instance : DecidableRel strLe := fun a b =>
  inferInstanceAs (Decidable (a.data ≤ b.data))

instance : IsTotal String strLe := ⟨fun a b => le_total a.data b.data⟩

instance : IsTrans String strLe := ⟨fun _ _ _ h h2 => le_trans h h2⟩

/-- Lexicographic order on a (Prop Name, Utility) group key, the order of a
two-key pandas groupby. -/
def pairLe (a b : String × String) : Prop :=
  a.1.data < b.1.data ∨ (a.1.data = b.1.data ∧ a.2.data ≤ b.2.data)

instance : DecidableRel pairLe := fun a b =>
  inferInstanceAs (Decidable (a.1.data < b.1.data ∨ (a.1.data = b.1.data ∧ a.2.data ≤ b.2.data)))

/-- Lines 134-137 of app.py: the year-over-year view, filtered by property and
utility only (all years kept). -/
def yoy_filtered (df : List Rec) (p u : String) : List Rec :=
  df.filter (fun r => decide (r.propName = p ∧ r.utility = u))

/-- The column keys of the pivot of lines 139-144: the distinct years present,
ascending. -/
def pivotYears (v : List Rec) : List Nat :=
  ((v.map (fun r => r.year)).dedup).insertionSort (· ≤ ·)

/-- One cell of the pivot of lines 139-144: the sum of Usage over the records
of the given month label and year, NaN when that (Month, Year) combination has
no record. -/
def pivotCell (v : List Rec) (mon : String) (yy : Nat) : PVal :=
  let g := v.filter (fun r => decide (r.month = mon ∧ r.year = yy))
  if g.isEmpty then PVal.nan
  else psum (g.map (fun r => ofOpt r.usage))

/-- The row keys of the pivot of lines 139-144: the Month column is an ordered
categorical, so the index carries all twelve categories in calendar order
(`observed=False`), and `dropna=True` then drops the all-NaN rows, i.e. the
months with no record at all; the rows that remain are in calendar order. -/
def pivotMonths (v : List Rec) : List String :=
  month_order.filter (fun mon => v.any (fun r => decide (r.month = mon)))

/-- Lines 139-147 of app.py: `yoy_filtered.pivot_table(index="Month",
columns="Year", values="Usage", aggfunc="sum")` — one row per (retained) month
label, one column per year present. -/
def pivot (df : List Rec) (p u : String) : List (String × List PVal) :=
  let v := yoy_filtered df p u
  (pivotMonths v).map (fun mon => (mon, (pivotYears v).map (fun yy => pivotCell v mon yy)))

/-- The (Prop Name, Utility) group key of a record. -/
def pairKey (r : Rec) : String × String := (r.propName, r.utility)

/-- The group keys of `df.groupby(["Prop Name", "Utility"])`: the distinct
key pairs, sorted (groupby sorts group keys ascending by default). -/
def summaryKeys (df : List Rec) : List (String × String) :=
  ((df.map pairKey).dedup).insertionSort pairLe

/-- One row of the portfolio summary: the group key and its four reductions,
Total_Usage = sum(Usage), Total_Cost = sum($ Amt), Avg_Monthly_Cost =
mean($ Amt), Avg_Cost_per_Unit = mean(Cost_per_Unit). -/
def summaryEntry (df : List Rec) (k : String × String) :
    (String × String) × PVal × PVal × PVal × PVal :=
  (k, psum ((df.filter (fun r => decide (pairKey r = k))).map (fun r => ofOpt r.usage)),
      psum ((df.filter (fun r => decide (pairKey r = k))).map (fun r => ofOpt r.amt)),
      pmean ((df.filter (fun r => decide (pairKey r = k))).map (fun r => ofOpt r.amt)),
      pmean ((df.filter (fun r => decide (pairKey r = k))).map (fun r => r.costPerUnit)))

/-- Lines 178-183 of app.py: the portfolio summary — group by
(Prop Name, Utility), one row per key. -/
def summary (df : List Rec) : List ((String × String) × PVal × PVal × PVal × PVal) :=
  (summaryKeys df).map (summaryEntry df)

/-- Lines 188-191 of app.py: `summary.groupby("Prop Name")` with
Total_Usage = sum(Total_Usage), Total_Cost = sum(Total_Cost) — the roll-up is
computed from the pre-aggregated summary values, not from the raw records.
Group keys are the distinct property names of the summary, ascending. -/
def prop_totals (df : List Rec) : List (String × PVal × PVal) :=
  ((((summary df).map (fun e => e.1.1)).dedup).insertionSort strLe).map (fun p =>
    (p, psum (((summary df).filter (fun e => decide (e.1.1 = p))).map (fun e => e.2.1)),
        psum (((summary df).filter (fun e => decide (e.1.1 = p))).map (fun e => e.2.2.1))))

/-- The month-start bin of a date: a strictly monotone encoding of the
first-of-month timestamp. -/
def monthIndex (d : PDate) : Nat := d.y * 12 + (d.m - 1)

/-- Lines 214-216 of app.py: `series.groupby(pd.Grouper(key="Date",
freq="MS")).agg(Usage=("Usage", "sum"))` — resample-like month-start bins
covering every month from the earliest to the latest record, empty bins
included (their sum is 0). -/
def monthlySeries : List Rec → List (Nat × PVal)
  | [] => []
  | r :: rs =>
    let v := r :: rs
    let idxs := v.map (fun x => monthIndex x.date)
    let lo := idxs.foldr min (monthIndex r.date)
    let hi := idxs.foldr max (monthIndex r.date)
    (List.range (hi + 1 - lo)).map (fun k =>
      (lo + k,
        psum ((v.filter (fun x => decide (monthIndex x.date = lo + k))).map
          (fun x => ofOpt x.usage))))

/-- The observable outcome of the forecast tab: either the informational
insufficient-history message, or a Prophet fit on the monthly series. -/
inductive ForecastAction where
  | insufficient
  | invoke (series : List (Nat × PVal))
deriving DecidableEq

/-- Lines 209-250 of app.py, the forecast tab: filter to the selected property
and utility, aggregate to month-start bins, and either fit the forecasting
collaborator on the series (at least 6 points) or show the
insufficient-history message and skip the collaborator call. -/
def tab_forecast (df : List Rec) (p u : String) : ForecastAction :=
  let monthly := monthlySeries (df.filter (fun r => decide (r.propName = p ∧ r.utility = u)))
  if 6 ≤ monthly.length then .invoke monthly else .insufficient

/-- Sum of the present values of a column of optional numbers; this is the
rational value of a pandas skipna sum of a finite-or-missing column. -/
def sumO (l : List (Option ℚ)) : ℚ := (l.filterMap id).sum

/-- The sum of Usage over the raw records of one property, re-derived from the
normalized table rather than from the pre-aggregated summary. -/
def rawPropUsage (df : List Rec) (p : String) : ℚ :=
  sumO ((df.filter (fun r => decide (r.propName = p))).map (fun r => r.usage))

/-- The sum of `$ Amt` over the raw records of one property, re-derived from
the normalized table rather than from the pre-aggregated summary. -/
def rawPropCost (df : List Rec) (p : String) : ℚ :=
  sumO ((df.filter (fun r => decide (r.propName = p))).map (fun r => r.amt))

/-- The claimed ranking order on the property totals: amounts descending (the
second component of the payload is the Total_Cost column). -/
def pNumGe (a b : PVal) : Prop :=
  match a, b with
  | .num x, .num y => y ≤ x
  | _, _ => False

/-- A normalized billing record for concrete tables: consistent derived fields
(Year, Month label, Cost_per_Unit) exactly as `load_data` produces them. -/
def mkBillRec (p u : String) (y m : Nat) (usg amt unitsQ : Option ℚ) : Rec :=
  { propName := p, city := "", state := "", utility := u,
    date := ⟨y, m, 1⟩, year := y, month := monthAbbrOf m,
    usage := usg, amt := amt, units := unitsQ,
    costPerUnit := pdiv (ofOpt amt) (ofOpt unitsQ) }

/-- One monthly usage record (usage only, no amount) for the year-over-year
scenario. -/
def mkMonthlyRec (p u : String) (y m : Nat) (usg : ℚ) : Rec :=
  mkBillRec p u y m (some usg) none none

/-- Scenario A of the spec: a table with 13 monthly rows for one property and
utility, spanning Jan of year `y` through Jan of year `y+1`. -/
def scenarioA (p u : String) (y : Nat) (us : Nat → ℚ) : List Rec :=
  [mkMonthlyRec p u y 1 (us 1), mkMonthlyRec p u y 2 (us 2),
   mkMonthlyRec p u y 3 (us 3), mkMonthlyRec p u y 4 (us 4),
   mkMonthlyRec p u y 5 (us 5), mkMonthlyRec p u y 6 (us 6),
   mkMonthlyRec p u y 7 (us 7), mkMonthlyRec p u y 8 (us 8),
   mkMonthlyRec p u y 9 (us 9), mkMonthlyRec p u y 10 (us 10),
   mkMonthlyRec p u y 11 (us 11), mkMonthlyRec p u y 12 (us 12),
   mkMonthlyRec p u (y + 1) 1 (us 13)]

/-- A source row whose Usage (10), dollar amount (50) and unit count (0)
disagree about cost-per-unit: the script computes `$ Amt / # units`. -/
def c1Row : Row :=
  { propName := "P1", city := "Boise", state := "ID", utility := "Electric",
    dateCell := "2023-01-15", usage := some 10, amt := some 50, units := some 0 }

/-- The record `load_data` produces for `c1Row`. -/
def c1Rec : Rec := mkRec c1Row ⟨2023, 1, 15⟩

/-- A source row with a missing unit count. -/
def c1bRow : Row :=
  { propName := "P1", city := "Boise", state := "ID", utility := "Electric",
    dateCell := "2023-02-15", usage := some 10, amt := some 50, units := none }

/-- The record `load_data` produces for `c1bRow`. -/
def c1bRec : Rec := mkRec c1bRow ⟨2023, 2, 15⟩

/-- Two source rows out of calendar order (March before January). -/
def c2Rows : List Row :=
  [{ propName := "P1", city := "Boise", state := "ID", utility := "Electric",
     dateCell := "2023-03-05", usage := none, amt := none, units := none },
   { propName := "P1", city := "Boise", state := "ID", utility := "Electric",
     dateCell := "2023-01-02", usage := none, amt := none, units := none }]

/-- The normalized table `load_data` produces for `c2Rows`: a March record then
a January record of the same year. -/
def c2Recs : List Rec :=
  [mkRec { propName := "P1", city := "Boise", state := "ID", utility := "Electric",
           dateCell := "2023-03-05", usage := none, amt := none, units := none } ⟨2023, 3, 5⟩,
   mkRec { propName := "P1", city := "Boise", state := "ID", utility := "Electric",
           dateCell := "2023-01-02", usage := none, amt := none, units := none } ⟨2023, 1, 2⟩]

/-- A six-month table (Jan..Jun of one year, one property and utility). -/
def c5Df : List Rec :=
  [mkMonthlyRec "P1" "Electric" 2023 1 5, mkMonthlyRec "P1" "Electric" 2023 2 5,
   mkMonthlyRec "P1" "Electric" 2023 3 5, mkMonthlyRec "P1" "Electric" 2023 4 5,
   mkMonthlyRec "P1" "Electric" 2023 5 5, mkMonthlyRec "P1" "Electric" 2023 6 5]

/-- Two records of one property and utility whose per-(Property, Utility) sums
are 100 (Electric) and 50 (Water). -/
def c7Df : List Rec :=
  [mkBillRec "P1" "Electric" 2023 1 (some 100) (some 100) none,
   mkBillRec "P1" "Water" 2023 1 (some 50) (some 50) none]

/-- A source row whose billing date cell cannot be parsed as a date. -/
def c9Row : Row :=
  { propName := "P1", city := "Boise", state := "ID", utility := "Electric",
    dateCell := "not a date", usage := some 1, amt := some 1, units := some 1 }

/-- Two properties whose total amounts (10 for "A", 20 for "B") are in
ascending, not descending, order when listed by property name. -/
def c10Df : List Rec :=
  [mkBillRec "A" "Electric" 2023 1 none (some 10) none,
   mkBillRec "B" "Electric" 2023 1 none (some 20) none]

/-- A date accepted by the parser has a calendar month between 1 and 12. -/
theorem parseDate_month_bounds {s : String} {d : PDate} (h : parseDate s = some d) :
    1 ≤ d.m ∧ d.m ≤ 12 := by
  unfold parseDate at h
  split at h
  · split at h
    · split at h
      · rename_i hcond
        cases h
        exact ⟨hcond.1, hcond.2.1⟩
      · cases h
    · cases h
  · cases h

/-- Every record a successful load produces comes from a row whose date parsed,
and its derived columns are the ones `load_data` computes. -/
theorem load_data_shape {rows : List Row} {recs : List Rec}
    (h : load_data rows = .ok recs) :
    ∀ r ∈ recs,
      r.month = monthAbbrOf r.date.m ∧ r.year = r.date.y ∧
      1 ≤ r.date.m ∧ r.date.m ≤ 12 ∧
      r.costPerUnit = pdiv (ofOpt r.amt) (ofOpt r.units) := by
  induction rows generalizing recs with
  | nil =>
    cases h
    intro r hr
    cases hr
  | cons a rs ih =>
    unfold load_data at h
    cases hp : parseDate a.dateCell with
    | none => rw [hp] at h; cases h
    | some d =>
      rw [hp] at h
      cases hr : load_data rs with
      | error e => rw [hr] at h; cases h
      | ok recs' =>
        rw [hr] at h
        cases h
        intro r hrm
        rcases List.mem_cons.mp hrm with rfl | hmem
        · obtain ⟨h1, h2⟩ := parseDate_month_bounds hp
          simp only [mkRec]
          exact ⟨trivial, trivial, h1, h2, trivial⟩
        · exact ih hr r hmem

/-- C9: a source table containing a row whose billing date cannot be parsed
never loads into a table of records with valid Year and Month fields: the whole
load fails with an error (pd.to_datetime raises), which the caller observes. -/
theorem unparseable_date_fails_load (rows : List Row)
    (h : ∃ r ∈ rows, parseDate r.dateCell = none) :
    ∃ e, load_data rows = .error e := by
  induction rows with
  | nil =>
    rcases h with ⟨r, hr, _⟩
    cases hr
  | cons a rs ih =>
    rcases h with ⟨r, hr, hnone⟩
    rcases List.mem_cons.mp hr with rfl | hmem
    · exact ⟨r.dateCell, by simp [load_data, hnone]⟩
    · cases hp : parseDate a.dateCell with
      | none => exact ⟨a.dateCell, by simp [load_data, hp]⟩
      | some d =>
        rcases ih ⟨r, hmem, hnone⟩ with ⟨e, he⟩
        exact ⟨e, by simp [load_data, hp, he]⟩

/-- Witness for C9: a concrete row whose date cell is not a date makes the
load fail. -/
theorem unparseable_date_fails_load_witness :
    ∃ e, load_data [c9Row] = .error e :=
  unparseable_date_fails_load [c9Row] ⟨c9Row, by decide, by decide⟩

/-- C1 counterexample: on the record loaded from `c1Row` (Usage 10, amount 50,
unit count 0) the derived Cost_per_Unit is `$ Amt / # units` = +infinity: it is
neither the amount divided by usage (which is 5) nor a missing value, refuting
the claim as stated. -/
theorem cost_per_unit_claim_counterexample :
    load_data [c1Row] = .ok [c1Rec] ∧
    c1Rec.usage = some 10 ∧ c1Rec.amt = some 50 ∧ c1Rec.units = some 0 ∧
    c1Rec.costPerUnit = PVal.inf ∧
    pdiv (ofOpt c1Rec.amt) (ofOpt c1Rec.usage) = PVal.num 5 ∧
    PVal.inf ≠ PVal.num 5 ∧ PVal.inf ≠ PVal.nan := by
  refine ⟨by decide, by decide, by decide, by decide, by decide, ?_, by decide, by decide⟩
  show pdiv (ofOpt (some 50)) (ofOpt (some 10)) = PVal.num 5
  norm_num [pdiv, ofOpt]

/-- C1 (amended): for every loaded record the Cost_per_Unit field equals the
dollar amount divided by the unit count (the `# units` column), under float
semantics: a missing amount or unit count, or 0/0, gives the missing value,
and a nonzero amount over a zero unit count gives ±infinity; no division error
is ever raised. -/
theorem cost_per_unit_amended (rows : List Row) (recs : List Rec)
    (h : load_data rows = .ok recs) :
    ∀ r ∈ recs,
      r.costPerUnit = pdiv (ofOpt r.amt) (ofOpt r.units) ∧
      ((r.units = none ∨ r.amt = none ∨ (r.units = some 0 ∧ r.amt = some 0)) →
        r.costPerUnit = PVal.nan) ∧
      (∀ a : ℚ, r.units = some 0 → r.amt = some a → a ≠ 0 →
        r.costPerUnit = if 0 < a then PVal.inf else PVal.neginf) := by
  intro r hr
  obtain ⟨_, _, _, _, hcpu⟩ := load_data_shape h r hr
  refine ⟨hcpu, ?_, ?_⟩
  · rintro (hu | ha | ⟨hu, ha⟩)
    · rcases hA : r.amt with _ | a <;> simp [hcpu, hu, hA, ofOpt, pdiv]
    · simp [hcpu, ha, ofOpt, pdiv]
    · simp [hcpu, hu, ha, ofOpt, pdiv]
  · intro a hu ha hne
    simp [hcpu, hu, ha, ofOpt, pdiv, hne]

/-- Witness for C1 (amended): the record loaded from a row with a missing unit
count has Cost_per_Unit equal to the amount-over-units float division, here the
missing value. -/
theorem cost_per_unit_amended_witness :
    c1bRec.costPerUnit = pdiv (ofOpt c1bRec.amt) (ofOpt c1bRec.units) ∧
    c1bRec.costPerUnit = PVal.nan :=
  ⟨(cost_per_unit_amended [c1bRow] [c1bRec] (by decide) c1bRec (by simp)).1,
   (cost_per_unit_amended [c1bRow] [c1bRec] (by decide) c1bRec (by simp)).2.1
     (Or.inl (by decide))⟩

/-- For months in calendar range, comparison of categorical codes of the
three-letter labels agrees with comparison of the calendar month numbers. -/
theorem catCode_monthAbbr :
    ∀ m1, m1 < 13 → ∀ m2, m2 < 13 → 1 ≤ m1 → 1 ≤ m2 →
      (catCode (monthAbbrOf m1) ≤ catCode (monthAbbrOf m2) ↔ m1 ≤ m2) := by decide

/-- The categorical code of a calendar month's label is its calendar position. -/
theorem catCode_eq : ∀ m, m < 13 → 1 ≤ m → catCode (monthAbbrOf m) = m - 1 := by decide

/-- C2: after `load_data` the Month labels carry the fixed Jan..Dec categorical
ordering: every record's label has categorical code equal to its calendar month
position, and sorting any loaded table by the Month categorical arranges the
records chronologically, whatever the input row order and regardless of the
alphabetic order of the three-letter labels. -/
theorem month_categorical_chronological (rows : List Row) (recs : List Rec)
    (h : load_data rows = .ok recs) :
    (∀ r ∈ recs, catCode r.month = r.date.m - 1) ∧
    (sortByMonth recs).Perm recs ∧
    (sortByMonth recs).Sorted (fun a b => a.date.m ≤ b.date.m) := by
  have hshape := load_data_shape h
  refine ⟨?_, List.perm_insertionSort _ _, ?_⟩
  · intro r hr
    obtain ⟨hm, _, h1, h2, _⟩ := hshape r hr
    rw [hm]
    exact catCode_eq r.date.m (by omega) h1
  · have hs : (sortByMonth recs).Sorted monthCatLe := List.sorted_insertionSort _ _
    have hmem : ∀ r ∈ sortByMonth recs, r ∈ recs := fun r hr =>
      (List.perm_insertionSort monthCatLe recs).mem_iff.mp hr
    refine List.Pairwise.imp_of_mem ?_ hs
    intro a b ha hb hab
    obtain ⟨hma, _, h1a, h2a, _⟩ := hshape a (hmem a ha)
    obtain ⟨hmb, _, h1b, h2b, _⟩ := hshape b (hmem b hb)
    unfold monthCatLe at hab
    rw [hma, hmb] at hab
    exact (catCode_monthAbbr a.date.m (by omega) b.date.m (by omega) h1a h1b).mp hab

/-- Witness for C2: a concrete two-row table given out of calendar order
(March before January) loads successfully and sorts chronologically by the
Month categorical. -/
theorem month_categorical_chronological_witness :
    load_data c2Rows = .ok c2Recs ∧
    (sortByMonth c2Recs).Sorted (fun a b => a.date.m ≤ b.date.m) :=
  ⟨by decide, (month_categorical_chronological c2Rows c2Recs (by decide)).2.2⟩

/-- C3: the sidebar filter is a read-only selection: it returns a sublist of
the input table (the table itself is never mutated), and when any predicate
value is absent from the table it returns the empty view rather than raising. -/
theorem filter_is_total_view (df : List Rec) (p u : String) (y : Nat) :
    (filtered df p u y).Sublist df ∧
    ((p ∉ df.map (fun r => r.propName) ∨ u ∉ df.map (fun r => r.utility) ∨
        y ∉ df.map (fun r => r.year)) →
      filtered df p u y = []) := by
  refine ⟨List.filter_sublist _, fun h => ?_⟩
  unfold filtered
  rw [List.filter_eq_nil_iff]
  intro r hr
  simp only [decide_eq_true_eq]
  rintro ⟨h1, h2, h3⟩
  rcases h with h | h | h
  · exact h (List.mem_map.mpr ⟨r, hr, h1⟩)
  · exact h (List.mem_map.mpr ⟨r, hr, h2⟩)
  · exact h (List.mem_map.mpr ⟨r, hr, h3⟩)

/-- Witness for C3: filtering a concrete table by a property name absent from
it yields the empty view. -/
theorem filter_is_total_view_witness :
    filtered c2Recs "P2" "Electric" 2023 = [] :=
  (filter_is_total_view c2Recs "P2" "Electric" 2023).2 (Or.inl (by decide))

/-- C4: over the empty filtered view the sum-based aggregates (Total Usage,
Total Cost) are 0 and the mean-based aggregates (Avg Monthly Cost, Avg Cost
per Unit) are the missing value NaN — not 0 and not a division error. -/
theorem empty_view_aggregates (df : List Rec) (p u : String) (y : Nat)
    (h : filtered df p u y = []) :
    totalUsage (filtered df p u y) = PVal.num 0 ∧
    totalCost (filtered df p u y) = PVal.num 0 ∧
    avgMonthlyCost (filtered df p u y) = PVal.nan ∧
    avgCostPerUnit (filtered df p u y) = PVal.nan := by
  rw [h]
  exact ⟨rfl, rfl, rfl, rfl⟩

/-- Witness for C4: the empty view obtained by filtering a concrete table on
an absent year has zero sums and missing means. -/
theorem empty_view_aggregates_witness :
    totalUsage (filtered c2Recs "P1" "Electric" 1999) = PVal.num 0 ∧
    totalCost (filtered c2Recs "P1" "Electric" 1999) = PVal.num 0 ∧
    avgMonthlyCost (filtered c2Recs "P1" "Electric" 1999) = PVal.nan ∧
    avgCostPerUnit (filtered c2Recs "P1" "Electric" 1999) = PVal.nan :=
  empty_view_aggregates c2Recs "P1" "Electric" 1999 (by decide)

/-- C5: the slider-driven monthly forecast invokes the collaborator exactly
when the per-month aggregated usage series of the selected property and
utility has at least 6 points; below that the insufficient-history message is
shown and the collaborator is never invoked. -/
theorem forecast_floor (df : List Rec) (p u : String) :
    ((monthlySeries (df.filter (fun r => decide (r.propName = p ∧ r.utility = u)))).length < 6 →
      tab_forecast df p u = .insufficient) ∧
    (6 ≤ (monthlySeries (df.filter (fun r => decide (r.propName = p ∧ r.utility = u)))).length →
      tab_forecast df p u =
        .invoke (monthlySeries (df.filter (fun r => decide (r.propName = p ∧ r.utility = u))))) := by
  constructor
  · intro h
    unfold tab_forecast
    rw [if_neg]
    omega
  · intro h
    unfold tab_forecast
    rw [if_pos h]

/-- A pandas skipna sum of a finite-or-missing column is finite: summing the
lifted column gives the rational skipna sum. -/
theorem psum_map_ofOpt (l : List (Option ℚ)) : psum (l.map ofOpt) = .num (sumO l) := by
  induction l with
  | nil => rfl
  | cons a l ih =>
    cases a with
    | none =>
      have h1 : psum ((none :: l).map ofOpt) = psum (l.map ofOpt) := rfl
      rw [h1, ih]
      simp [sumO, List.filterMap_cons]
    | some q =>
      have h1 : psum ((some q :: l).map ofOpt) = padd (.num q) (psum (l.map ofOpt)) := rfl
      rw [h1, ih]
      simp [sumO, List.filterMap_cons, padd]

/-- A pandas sum of an all-finite column is the rational sum. -/
theorem psum_map_num {α : Type} (f : α → ℚ) (l : List α) :
    psum (l.map (fun x => PVal.num (f x))) = .num ((l.map f).sum) := by
  induction l with
  | nil => rfl
  | cons a l ih =>
    have h1 : psum ((a :: l).map (fun x => PVal.num (f x)))
        = padd (.num (f a)) (psum (l.map (fun x => PVal.num (f x)))) := rfl
    rw [h1, ih]
    simp [padd]

/-- A skipna sum equals the plain sum of the column with missing cells read
as 0. -/
theorem sumO_eq_sum_getD (l : List (Option ℚ)) :
    sumO l = (l.map (fun a => a.getD 0)).sum := by
  induction l with
  | nil => rfl
  | cons a l ih =>
    cases a <;> simp [sumO, List.filterMap_cons, ih] <;> simp only [sumO] at ih <;>
      simp [ih]

/-- Splitting a sum over a list by a boolean predicate. -/
theorem sum_map_filter_split {α : Type} (p : α → Bool) (f : α → ℚ) (l : List α) :
    ((l.filter p).map f).sum + ((l.filter (fun x => !p x)).map f).sum = (l.map f).sum := by
  induction l with
  | nil => simp
  | cons a l ih =>
    cases hpa : p a <;> simp [List.filter_cons, hpa, ← ih] <;> ring

/-- Pre-filtering by a weaker predicate does not change a filter. -/
theorem filter_filter_of_imp {α : Type} (p q : α → Bool) (l : List α)
    (h : ∀ x, p x = true → q x = true) :
    (l.filter q).filter p = l.filter p := by
  induction l with
  | nil => rfl
  | cons a l ih =>
    cases hpa : p a
    · cases hqa : q a <;> simp [List.filter_cons, hpa, hqa, ih]
    · have hqa := h a hpa
      simp [List.filter_cons, hpa, hqa, ih]

/-- Summing fiberwise over a duplicate-free covering key list equals summing
over the whole list. -/
theorem sum_fiberwise {α κ : Type} [DecidableEq κ] (key : α → κ) (f : α → ℚ) :
    ∀ (K : List κ) (l : List α), K.Nodup → (∀ x ∈ l, key x ∈ K) →
      (K.map (fun k => ((l.filter (fun x => decide (key x = k))).map f).sum)).sum
        = (l.map f).sum := by
  intro K
  induction K with
  | nil =>
    intro l _ hcov
    have hnil : l = [] := by
      cases l with
      | nil => rfl
      | cons a l => exact absurd (hcov a (by simp)) (by simp)
    subst hnil
    simp
  | cons k K ih =>
    intro l hnd hcov
    have hnd' : K.Nodup := (List.nodup_cons.mp hnd).2
    have hknotin : k ∉ K := (List.nodup_cons.mp hnd).1
    have hfib : ∀ k' ∈ K,
        (l.filter (fun x => !decide (key x = k))).filter (fun x => decide (key x = k'))
          = l.filter (fun x => decide (key x = k')) := by
      intro k' hk'
      refine filter_filter_of_imp _ _ l ?_
      intro x hx
      have hxk : key x = k' := of_decide_eq_true hx
      have hkk : k' ≠ k := fun he => hknotin (he ▸ hk')
      simp [hxk, hkk]
    have hcov' : ∀ x ∈ l.filter (fun x => !decide (key x = k)), key x ∈ K := by
      intro x hx
      obtain ⟨hxl, hxp⟩ := List.mem_filter.mp hx
      have hne : key x ≠ k := by
        intro he
        simp [he] at hxp
      rcases List.mem_cons.mp (hcov x hxl) with he | hm
      · exact absurd he hne
      · exact hm
    have hrw : K.map (fun k' => ((l.filter (fun x => decide (key x = k'))).map f).sum)
        = K.map (fun k' =>
            (((l.filter (fun x => !decide (key x = k))).filter
               (fun x => decide (key x = k'))).map f).sum) := by
      refine List.map_congr_left ?_
      intro k' hk'
      rw [hfib k' hk']
    rw [List.map_cons, List.sum_cons, hrw,
      ih (l.filter (fun x => !decide (key x = k))) hnd' hcov',
      sum_map_filter_split (fun x => decide (key x = k)) f l]

/-- Summing a column fiberwise over the summary keys of one property equals
summing it over that property's raw records. -/
theorem summary_fiber_sum (df : List Rec) (p : String) (g : Rec → Option ℚ) :
    ((((summaryKeys df).filter (fun k => decide (k.1 = p))).map
        (fun k => sumO ((df.filter (fun r => decide (pairKey r = k))).map g))).sum)
      = sumO ((df.filter (fun r => decide (r.propName = p))).map g) := by
  have hK : (((summaryKeys df).filter (fun k => decide (k.1 = p)))).Nodup :=
    List.Nodup.filter _
      ((List.perm_insertionSort pairLe _).nodup_iff.mpr (List.nodup_dedup _))
  have hcov : ∀ x ∈ df.filter (fun r => decide (r.propName = p)),
      pairKey x ∈ (summaryKeys df).filter (fun k => decide (k.1 = p)) := by
    intro x hx
    obtain ⟨hxdf, hxp⟩ := List.mem_filter.mp hx
    have hxp' : x.propName = p := of_decide_eq_true hxp
    refine List.mem_filter.mpr ⟨?_, by simp [pairKey, hxp']⟩
    have hmem : pairKey x ∈ (df.map pairKey).dedup :=
      List.mem_dedup.mpr (List.mem_map.mpr ⟨x, hxdf, rfl⟩)
    exact (List.perm_insertionSort pairLe _).mem_iff.mpr hmem
  have hfibers : ∀ k ∈ (summaryKeys df).filter (fun k => decide (k.1 = p)),
      df.filter (fun r => decide (pairKey r = k))
        = (df.filter (fun r => decide (r.propName = p))).filter
            (fun r => decide (pairKey r = k)) := by
    intro k hk
    have hk1 : k.1 = p := of_decide_eq_true (List.mem_filter.mp hk).2
    refine (filter_filter_of_imp _ _ df ?_).symm
    intro x hx
    have hxk : pairKey x = k := of_decide_eq_true hx
    have : x.propName = p := by
      rw [← hk1, ← hxk]
      rfl
    simp [this]
  rw [List.map_congr_left (fun k hk => by rw [hfibers k hk])]
  rw [sumO_eq_sum_getD]
  have hpt : ∀ k, ((((df.filter (fun r => decide (r.propName = p))).filter
        (fun r => decide (pairKey r = k))).map g)).filterMap id
      = (((df.filter (fun r => decide (r.propName = p))).filter
        (fun r => decide (pairKey r = k))).map (fun r => g r)).filterMap id := fun k => rfl
  have hsum : ∀ k, sumO (((df.filter (fun r => decide (r.propName = p))).filter
        (fun r => decide (pairKey r = k))).map g)
      = (((df.filter (fun r => decide (r.propName = p))).filter
          (fun r => decide (pairKey r = k))).map (fun r => (g r).getD 0)).sum := by
    intro k
    rw [sumO_eq_sum_getD, List.map_map]
    rfl
  rw [List.map_congr_left (fun k _ => hsum k), List.map_map]
  exact sum_fiberwise pairKey (fun r => (g r).getD 0) _ _ hK hcov

/-- Filtering the summary to one property keeps exactly the rows built from
that property's keys. -/
theorem filter_summary (df : List Rec) (p : String) :
    (summary df).filter (fun s => decide (s.1.1 = p))
      = ((summaryKeys df).filter (fun k => decide (k.1 = p))).map (summaryEntry df) := by
  unfold summary
  rw [List.filter_map]
  congr 1

/-- The Total_Usage column of one property's summary rows sums to the usage
total re-derived from that property's raw records. -/
theorem rollup_usage_col (df : List Rec) (p : String) :
    psum (((summary df).filter (fun s => decide (s.1.1 = p))).map (fun s => s.2.1))
      = PVal.num (rawPropUsage df p) := by
  rw [filter_summary, List.map_map]
  have hcols : ∀ k ∈ (summaryKeys df).filter (fun k => decide (k.1 = p)),
      ((fun s : (String × String) × PVal × PVal × PVal × PVal => s.2.1) ∘ summaryEntry df) k
      = PVal.num (sumO ((df.filter (fun r => decide (pairKey r = k))).map (fun r => r.usage))) := by
    intro k _
    show psum ((df.filter (fun r => decide (pairKey r = k))).map (fun r => ofOpt r.usage)) = _
    rw [show (fun r : Rec => ofOpt r.usage) = ofOpt ∘ (fun r => r.usage) from rfl,
      ← List.map_map]
    exact psum_map_ofOpt _
  rw [List.map_congr_left hcols, psum_map_num
    (fun k => sumO ((df.filter (fun r => decide (pairKey r = k))).map (fun r => r.usage))) _]
  rw [summary_fiber_sum df p (fun r => r.usage)]
  rfl

/-- The Total_Cost column of one property's summary rows sums to the dollar
total re-derived from that property's raw records. -/
theorem rollup_cost_col (df : List Rec) (p : String) :
    psum (((summary df).filter (fun s => decide (s.1.1 = p))).map (fun s => s.2.2.1))
      = PVal.num (rawPropCost df p) := by
  rw [filter_summary, List.map_map]
  have hcols : ∀ k ∈ (summaryKeys df).filter (fun k => decide (k.1 = p)),
      ((fun s : (String × String) × PVal × PVal × PVal × PVal => s.2.2.1) ∘ summaryEntry df) k
      = PVal.num (sumO ((df.filter (fun r => decide (pairKey r = k))).map (fun r => r.amt))) := by
    intro k _
    show psum ((df.filter (fun r => decide (pairKey r = k))).map (fun r => ofOpt r.amt)) = _
    rw [show (fun r : Rec => ofOpt r.amt) = ofOpt ∘ (fun r => r.amt) from rfl,
      ← List.map_map]
    exact psum_map_ofOpt _
  rw [List.map_congr_left hcols, psum_map_num
    (fun k => sumO ((df.filter (fun r => decide (pairKey r = k))).map (fun r => r.amt))) _]
  rw [summary_fiber_sum df p (fun r => r.amt)]
  rfl

/-- C7: every row of the property roll-up equals both the sum of that
property's pre-aggregated per-(Property, Utility) summary sums — which is how
the code computes it — and the total re-derived from the raw records, so the
computation over pre-aggregated values agrees with re-deriving from raw
records. -/
theorem property_rollup (df : List Rec) :
    ∀ e ∈ prop_totals df,
      e.2.1 = psum (((summary df).filter (fun s => decide (s.1.1 = e.1))).map
        (fun s => s.2.1)) ∧
      e.2.2 = psum (((summary df).filter (fun s => decide (s.1.1 = e.1))).map
        (fun s => s.2.2.1)) ∧
      e.2.1 = PVal.num (rawPropUsage df e.1) ∧
      e.2.2 = PVal.num (rawPropCost df e.1) := by
  intro e he
  obtain ⟨p, hp, rfl⟩ := List.mem_map.mp he
  exact ⟨rfl, rfl, rollup_usage_col df p, rollup_cost_col df p⟩

/-- Witness for C7: for the concrete table whose per-(Property, Utility)
amount sums are (P1, Electric) = 100 and (P1, Water) = 50, the P1 row of the
roll-up carries total cost 150, and it equals the total re-derived from the
raw records. -/
theorem property_rollup_witness :
    (PVal.num 150 : PVal) = PVal.num (rawPropCost c7Df "P1") := by
  have hval : prop_totals c7Df = [("P1", PVal.num 150, PVal.num 150)] := by
    norm_num [prop_totals, summary, summaryEntry, summaryKeys, pairKey, strLe, pairLe,
      psum, pmean, padd, pdiv, ofOpt, PVal.isNan, c7Df, mkBillRec, List.insertionSort,
      List.orderedInsert, List.dedup, List.filter]
  exact (property_rollup c7Df ("P1", PVal.num 150, PVal.num 150)
    (by rw [hval]; exact List.mem_singleton.mpr rfl)).2.2.2

/-- Strings with equal character data are equal. -/
theorem string_data_inj {a b : String} (h : a.data = b.data) : a = b := by
  cases a
  cases b
  cases h
  rfl

/-- C10 counterexample: for the two-property table with total amounts 10
(property "A") and 20 (property "B"), the property aggregate lists "A" before
"B" — groupby orders by key — so its Total_Cost column is ascending and the
aggregate is not sorted descending by total amount. -/
theorem property_ranking_claim_counterexample :
    prop_totals c10Df = [("A", PVal.num 0, PVal.num 10), ("B", PVal.num 0, PVal.num 20)] ∧
    ¬ ((prop_totals c10Df).Pairwise (fun a b => pNumGe a.2.2 b.2.2)) := by
  have hval : prop_totals c10Df
      = [("A", PVal.num 0, PVal.num 10), ("B", PVal.num 0, PVal.num 20)] := by
    norm_num [prop_totals, summary, summaryEntry, summaryKeys, pairKey, strLe, pairLe,
      psum, pmean, padd, pdiv, ofOpt, PVal.isNan, c10Df, mkBillRec, List.insertionSort,
      List.orderedInsert, List.dedup, List.filter]
    rw [if_pos (show (['A'] : List Char) ≤ ['B'] by decide)]
    norm_num [padd, PVal.isNan, List.filter]
  refine ⟨hval, ?_⟩
  rw [hval]
  norm_num [List.pairwise_cons, pNumGe]

/-- C10 (amended): the property cost aggregate (group by property, summing the
pre-aggregated amounts) has exactly one row per distinct property name of the
summary and is ordered ascending by property name — the groupby key — not
descending by total amount. -/
theorem prop_totals_ordered_by_name (df : List Rec) :
    ((prop_totals df).map (fun e => e.1)).Perm (((summary df).map (fun e => e.1.1)).dedup) ∧
    ((prop_totals df).map (fun e => e.1.data)).Pairwise (· < ·) := by
  have hmapfst : (prop_totals df).map (fun e => e.1)
      = (((summary df).map (fun e => e.1.1)).dedup).insertionSort strLe := by
    unfold prop_totals
    rw [List.map_map]
    exact List.map_id'' (fun _ => rfl) _
  have hperm : ((((summary df).map (fun e => e.1.1)).dedup).insertionSort strLe).Perm
      (((summary df).map (fun e => e.1.1)).dedup) :=
    List.perm_insertionSort _ _
  have hnodup : ((((summary df).map (fun e => e.1.1)).dedup).insertionSort strLe).Nodup :=
    hperm.nodup_iff.mpr (List.nodup_dedup _)
  have hsorted : ((((summary df).map (fun e => e.1.1)).dedup).insertionSort strLe).Pairwise strLe :=
    List.sorted_insertionSort _ _
  constructor
  · rw [hmapfst]
    exact hperm
  · have hdata : (prop_totals df).map (fun e => e.1.data)
        = ((prop_totals df).map (fun e => e.1)).map String.data := by
      rw [List.map_map]
      rfl
    rw [hdata, hmapfst, List.pairwise_map]
    refine (hsorted.and hnodup).imp ?_
    rintro a b ⟨hle, hne⟩
    exact lt_of_le_of_ne hle (fun hd => hne (string_data_inj hd))

/-- Lower bound of a right fold with min over the list members. -/
theorem foldr_min_le_mem (l : List Nat) (a x : Nat) (hx : x ∈ l) : l.foldr min a ≤ x := by
  induction l with
  | nil => cases hx
  | cons b l ih =>
    rcases List.mem_cons.mp hx with rfl | hm
    · exact min_le_left _ _
    · exact le_trans (min_le_right _ _) (ih hm)

/-- Upper bound of a right fold with max over the list members. -/
theorem le_foldr_max_mem (l : List Nat) (a x : Nat) (hx : x ∈ l) : x ≤ l.foldr max a := by
  induction l with
  | nil => cases hx
  | cons b l ih =>
    rcases List.mem_cons.mp hx with rfl | hm
    · exact le_max_left _ _
    · exact le_trans (ih hm) (le_max_right _ _)

/-- C8 counterexample: for a table whose records fall in January and March, the
monthly series the forecast tab builds has three pairs — the empty February bin
is included — so it does not contain exactly one pair per distinct
first-of-month period of the selected records (there are only two). -/
theorem forecast_series_claim_counterexample :
    (monthlySeries (c2Recs.filter
       (fun r => decide (r.propName = "P1" ∧ r.utility = "Electric")))).length = 3 ∧
    ((c2Recs.map (fun r => monthIndex r.date)).dedup).length = 2 ∧
    ¬ (∀ pr ∈ monthlySeries (c2Recs.filter
         (fun r => decide (r.propName = "P1" ∧ r.utility = "Electric"))),
        ∃ r ∈ c2Recs, monthIndex r.date = pr.1) :=
  ⟨by decide, by decide, by decide⟩

/-- C8 (amended): the monthly series handed to the forecasting collaborator
has strictly increasing timestamps with no duplicates, one pair per
first-of-month bin between the earliest and the latest record month (bins with
no records carry the empty sum 0); the value of each pair is the sum of the
usage of all rows falling in that month, so duplicate months are summed into a
single pair, and every record's month is represented by exactly one pair. -/
theorem forecast_series_amended (v : List Rec) :
    ((monthlySeries v).map Prod.fst).Pairwise (· < ·) ∧
    (∀ pr ∈ monthlySeries v,
      pr.2 = psum ((v.filter (fun x => decide (monthIndex x.date = pr.1))).map
        (fun x => ofOpt x.usage))) ∧
    (∀ r ∈ v, ∃ pr ∈ monthlySeries v, pr.1 = monthIndex r.date) := by
  cases v with
  | nil =>
    refine ⟨List.Pairwise.nil, ?_, ?_⟩
    · intro pr hpr; cases hpr
    · intro r hr; cases hr
  | cons r rs =>
    simp only [monthlySeries, List.map_cons, List.foldr_cons]
    refine ⟨?_, ?_, ?_⟩
    · rw [List.map_map, List.pairwise_map]
      refine (List.pairwise_lt_range _).imp ?_
      intro a b h
      simp only [Function.comp_apply]
      omega
    · intro pr hpr
      obtain ⟨k, hk, rfl⟩ := List.mem_map.mp hpr
      rfl
    · intro x hx
      have hmem : monthIndex x.date ∈ (r :: rs).map (fun z => monthIndex z.date) :=
        List.mem_map.mpr ⟨x, hx, rfl⟩
      have hlo := foldr_min_le_mem _ (monthIndex r.date) _ hmem
      have hhi := le_foldr_max_mem _ (monthIndex r.date) _ hmem
      simp only [List.map_cons, List.foldr_cons] at hlo hhi
      refine ⟨_, List.mem_map.mpr ⟨monthIndex x.date - min (monthIndex r.date)
          (List.foldr min (monthIndex r.date) (List.map (fun z => monthIndex z.date) rs)),
        List.mem_range.mpr ?_, rfl⟩, ?_⟩
      · omega
      · show min (monthIndex r.date)
            (List.foldr min (monthIndex r.date) (List.map (fun z => monthIndex z.date) rs)) +
            (monthIndex x.date - min (monthIndex r.date)
              (List.foldr min (monthIndex r.date) (List.map (fun z => monthIndex z.date) rs)))
            = monthIndex x.date
        omega

/-- Witness for C8 (amended): in the concrete three-bin series, the January
record's month is represented by a pair. -/
theorem forecast_series_amended_witness :
    ∃ pr ∈ monthlySeries c2Recs, pr.1 = monthIndex (PDate.mk 2023 1 2) :=
  (forecast_series_amended c2Recs).2.2
    (mkRec { propName := "P1", city := "Boise", state := "ID", utility := "Electric",
             dateCell := "2023-01-02", usage := none, amt := none, units := none }
      ⟨2023, 1, 2⟩)
    (by decide)

/-- January's label. -/
theorem monthAbbrOf_one : monthAbbrOf 1 = "Jan" := by decide

/-- February's label. -/
theorem monthAbbrOf_two : monthAbbrOf 2 = "Feb" := by decide

/-- March's label. -/
theorem monthAbbrOf_three : monthAbbrOf 3 = "Mar" := by decide

/-- April's label. -/
theorem monthAbbrOf_four : monthAbbrOf 4 = "Apr" := by decide

/-- May's label. -/
theorem monthAbbrOf_five : monthAbbrOf 5 = "May" := by decide

/-- June's label. -/
theorem monthAbbrOf_six : monthAbbrOf 6 = "Jun" := by decide

/-- July's label. -/
theorem monthAbbrOf_seven : monthAbbrOf 7 = "Jul" := by decide

/-- August's label. -/
theorem monthAbbrOf_eight : monthAbbrOf 8 = "Aug" := by decide

/-- September's label. -/
theorem monthAbbrOf_nine : monthAbbrOf 9 = "Sep" := by decide

/-- October's label. -/
theorem monthAbbrOf_ten : monthAbbrOf 10 = "Oct" := by decide

/-- November's label. -/
theorem monthAbbrOf_eleven : monthAbbrOf 11 = "Nov" := by decide

/-- December's label. -/
theorem monthAbbrOf_twelve : monthAbbrOf 12 = "Dec" := by decide

/-- C6: for a table of 13 monthly rows of one property and utility spanning
January of year `y` through January of year `y+1`, the year-over-year pivot
has exactly 12 month rows (all twelve labels, in calendar order) and two year
columns `y` and `y+1`; every first-year cell is populated, the second-year
January cell is populated, and every other second-year cell is the missing
value, not zero. -/
theorem yoy_pivot_scenario (p u : String) (y : Nat) (us : Nat → ℚ) :
    (pivot (scenarioA p u y us) p u).length = 12 ∧
    pivotMonths (yoy_filtered (scenarioA p u y us) p u) = month_order ∧
    pivotYears (yoy_filtered (scenarioA p u y us) p u) = [y, y + 1] ∧
    (∀ mon ∈ month_order,
      pivotCell (yoy_filtered (scenarioA p u y us) p u) mon y ≠ PVal.nan) ∧
    pivotCell (yoy_filtered (scenarioA p u y us) p u) "Jan" (y + 1) ≠ PVal.nan ∧
    (∀ mon ∈ month_order, mon ≠ "Jan" →
      pivotCell (yoy_filtered (scenarioA p u y us) p u) mon (y + 1) = PVal.nan) := by
  have hyne' : y ≠ y + 1 := fun h => Nat.succ_ne_self y h.symm
  have hv : yoy_filtered (scenarioA p u y us) p u = scenarioA p u y us := by
    simp [yoy_filtered, scenarioA, mkMonthlyRec, mkBillRec, List.filter_cons]
  have hmap : (scenarioA p u y us).map (fun r => r.year)
      = [y, y, y, y, y, y, y, y, y, y, y, y, y + 1] := by
    simp [scenarioA, mkMonthlyRec, mkBillRec]
  have hded : ([y, y, y, y, y, y, y, y, y, y, y, y, y + 1] : List Nat).dedup = [y, y + 1] := by
    simp [List.dedup_cons_of_mem, List.dedup_cons_of_not_mem, hyne']
  have hyrs : pivotYears (scenarioA p u y us) = [y, y + 1] := by
    unfold pivotYears
    rw [hmap, hded]
    simp [List.insertionSort, List.orderedInsert, Nat.le_succ]
  have hmons : pivotMonths (scenarioA p u y us) = month_order := by
    unfold pivotMonths
    apply List.filter_eq_self.mpr
    intro mon hm
    fin_cases hm <;>
      simp [scenarioA, mkMonthlyRec, mkBillRec, monthAbbrOf_one, monthAbbrOf_two,
        monthAbbrOf_three, monthAbbrOf_four, monthAbbrOf_five, monthAbbrOf_six,
        monthAbbrOf_seven, monthAbbrOf_eight, monthAbbrOf_nine, monthAbbrOf_ten,
        monthAbbrOf_eleven, monthAbbrOf_twelve]
  have hcell1 : ∀ mon ∈ month_order,
      pivotCell (scenarioA p u y us) mon y ≠ PVal.nan := by
    intro mon hm
    fin_cases hm <;>
      simp [pivotCell, scenarioA, mkMonthlyRec, mkBillRec, List.filter_cons,
        monthAbbrOf_one, monthAbbrOf_two, monthAbbrOf_three, monthAbbrOf_four,
        monthAbbrOf_five, monthAbbrOf_six, monthAbbrOf_seven, monthAbbrOf_eight,
        monthAbbrOf_nine, monthAbbrOf_ten, monthAbbrOf_eleven, monthAbbrOf_twelve,
        psum, padd, ofOpt, PVal.isNan, hyne']
  have hcellJan : pivotCell (scenarioA p u y us) "Jan" (y + 1) ≠ PVal.nan := by
    simp [pivotCell, scenarioA, mkMonthlyRec, mkBillRec, List.filter_cons,
      monthAbbrOf_one, monthAbbrOf_two, monthAbbrOf_three, monthAbbrOf_four,
      monthAbbrOf_five, monthAbbrOf_six, monthAbbrOf_seven, monthAbbrOf_eight,
      monthAbbrOf_nine, monthAbbrOf_ten, monthAbbrOf_eleven, monthAbbrOf_twelve,
      psum, padd, ofOpt, PVal.isNan, hyne']
  have hcell2 : ∀ mon ∈ month_order, mon ≠ "Jan" →
      pivotCell (scenarioA p u y us) mon (y + 1) = PVal.nan := by
    intro mon hm hne
    fin_cases hm <;>
      first
        | exact absurd rfl hne
        | simp [pivotCell, scenarioA, mkMonthlyRec, mkBillRec, List.filter_cons,
            monthAbbrOf_one, monthAbbrOf_two, monthAbbrOf_three, monthAbbrOf_four,
            monthAbbrOf_five, monthAbbrOf_six, monthAbbrOf_seven, monthAbbrOf_eight,
            monthAbbrOf_nine, monthAbbrOf_ten, monthAbbrOf_eleven, monthAbbrOf_twelve,
            hyne']
  refine ⟨?_, by rw [hv]; exact hmons, by rw [hv]; exact hyrs,
    by rw [hv]; exact hcell1, by rw [hv]; exact hcellJan, by rw [hv]; exact hcell2⟩
  unfold pivot
  rw [hv]
  simp only [List.length_map]
  rw [hmons]
  rfl

/-- Witness for C6: at a concrete instantiation (year 2023, usage n for row n)
the pivot has 12 rows and the second-year February cell is missing. -/
theorem yoy_pivot_scenario_witness :
    (pivot (scenarioA "P1" "Electric" 2023 (fun n => (n : ℚ))) "P1" "Electric").length = 12 ∧
    pivotCell (yoy_filtered (scenarioA "P1" "Electric" 2023 (fun n => (n : ℚ)))
      "P1" "Electric") "Feb" (2023 + 1) = PVal.nan :=
  ⟨(yoy_pivot_scenario "P1" "Electric" 2023 (fun n => (n : ℚ))).1,
   (yoy_pivot_scenario "P1" "Electric" 2023 (fun n => (n : ℚ))).2.2.2.2.2 "Feb"
     (by decide) (by decide)⟩

/-- Witness for C5: a two-record table spans three month bins, so the forecast
tab reports insufficient history; a six-month table reaches the floor, so the
collaborator is invoked on its series. -/
theorem forecast_floor_witness :
    tab_forecast c2Recs "P1" "Electric" = .insufficient ∧
    tab_forecast c5Df "P1" "Electric" =
      .invoke (monthlySeries (c5Df.filter
        (fun r => decide (r.propName = "P1" ∧ r.utility = "Electric")))) :=
  ⟨(forecast_floor c2Recs "P1" "Electric").1 (by decide),
   (forecast_floor c5Df "P1" "Electric").2 (by decide)⟩

end App

